import Mathlib

/-! Shallow embedding of the statistical core of `dashv1.py`
    (GrainSizeDashboard).  Rational numbers stand in for the script's
    floating-point values; a missing cell (NaN) is `none`.  The interactive
    figures are abstracted to the data tables they are drawn from. -/

namespace Dashv1

/-- One long-form row of `df2` (the melted table): sample metadata plus one
    (Size, Percent_Volume) reading.  `Size` and `Percent_Volume` are `none`
    when `pd.to_numeric(..., errors="coerce")` produced NaN. -/
structure Reading where
  BoreholeID : String
  Formation : String
  SampleName : String
  depth : ℚ
  Size : Option ℚ
  Percent_Volume : Option ℚ
  deriving DecidableEq, Repr

/-- Valid (Size, Percent_Volume) pairs of a sample: the rows surviving
    `dropna(subset=["Size", "Percent_Volume"])`, in table order. -/
def validPairs (rs : List Reading) : List (ℚ × ℚ) :=
  rs.filterMap fun r =>
    match r.Size, r.Percent_Volume with
    | some s, some p => some (s, p)
    | _, _ => none

/-- Order used by `df_sample.sort_values("Size")`: compare the Size
    component of a (Size, Percent_Volume) pair. -/
def sizeLe (a b : ℚ × ℚ) : Prop := a.1 ≤ b.1

instance : DecidableRel sizeLe := fun a b => inferInstanceAs (Decidable (a.1 ≤ b.1))

/-- The sample's valid pairs sorted by Size.  In the script the rows are
    sorted first and the NaN rows dropped afterwards; NaN keys sort to the
    end and removing rows keeps relative order, so this equals dropping
    first and sorting the survivors.  No claim depends on the order of rows
    with equal Size (their cumulative block yields the same interpolant). -/
def sortedPairs (rs : List Reading) : List (ℚ × ℚ) :=
  List.insertionSort sizeLe (validPairs rs)

/-- Running cumulative sum `cum_pct`, paired with Size: input pairs are
    (Size, Percent_Volume), output pairs are (cum_pct, Size). -/
def cumPairs (acc : ℚ) : List (ℚ × ℚ) → List (ℚ × ℚ)
  | [] => []
  | (s, p) :: rest => (acc + p, s) :: cumPairs (acc + p) rest

/-- Model of `np.interp(x, xp, fp)` on a list of (xp, fp) pairs whose xp
    components are non-decreasing: fp[0] left of the key range, fp[last]
    right of it, fp[j] at x = xp[j] for the largest such j, and linear
    interpolation between bracketing keys. -/
def interpPts (x : ℚ) : List (ℚ × ℚ) → ℚ
  | [] => 0
  | [e] => e.2
  | e :: e' :: rest =>
    if x < e'.1 then
      if x ≤ e.1 then e.2
      else e.2 + (e'.2 - e.2) * (x - e.1) / (e'.1 - e.1)
    else interpPts x (e' :: rest)

/-- Result record of `compute_d_values`. -/
structure DValues where
  D10 : ℚ
  D50 : ℚ
  D90 : ℚ
  deriving DecidableEq, Repr

/-- The percentile engine `compute_d_values`: sort by Size, drop NaN rows,
    cumulate Percent_Volume, then interpolate Size at the targets 10, 50
    and 90.  `none` models the ValueError `np.interp` raises when the
    sample has no valid (Size, Percent_Volume) row at all. -/
def compute_d_values (rs : List Reading) : Option DValues :=
  let pts := cumPairs 0 (sortedPairs rs)
  if pts.isEmpty then none
  else some { D10 := interpPts 10 pts, D50 := interpPts 50 pts, D90 := interpPts 90 pts }

/-- Boolean mask `df_sample["Size"] < 4` (a NaN Size compares False). -/
def clayMask (r : Reading) : Bool :=
  match r.Size with
  | some s => decide (s < 4)
  | none => false

/-- Boolean mask `(Size >= 4) & (Size < 63)`. -/
def siltMask (r : Reading) : Bool :=
  match r.Size with
  | some s => decide (4 ≤ s) && decide (s < 63)
  | none => false

/-- Boolean mask `(Size >= 63) & (Size <= 2000)`. -/
def sandMask (r : Reading) : Bool :=
  match r.Size with
  | some s => decide (63 ≤ s) && decide (s ≤ 2000)
  | none => false

/-- Pandas `.sum()` over a Percent_Volume column: NaN entries are skipped,
    an empty selection sums to 0. -/
def seriesSum (l : List (Option ℚ)) : ℚ :=
  (l.map fun x => x.getD 0).sum

/-- Result record of `texture_fractions`. -/
structure Texture where
  Clay : ℚ
  Silt : ℚ
  Sand : ℚ
  deriving DecidableEq, Repr

/-- The texture classifier `texture_fractions`: sum Percent_Volume over the
    rows selected by each size mask. -/
def texture_fractions (rs : List Reading) : Texture :=
  { Clay := seriesSum ((rs.filter clayMask).map (·.Percent_Volume))
    Silt := seriesSum ((rs.filter siltMask).map (·.Percent_Volume))
    Sand := seriesSum ((rs.filter sandMask).map (·.Percent_Volume)) }

/-- One row of `df_stats`. -/
structure StatsRow where
  D10 : Option ℚ
  D50 : Option ℚ
  D90 : Option ℚ
  Clay : ℚ
  Silt : ℚ
  Sand : ℚ
  SampleName : String
  Formation : String
  BoreholeID : String
  deriving DecidableEq, Repr

/-- Keys of the dict a `sample_stats` entry is built from, in insertion
    order: the `compute_d_values` keys, then the `texture_fractions` keys
    merged by the first `update`, then the metadata keys added by the
    second `update`. -/
def statsRowFields : List String :=
  ["D10", "D50", "D90", "Clay", "Silt", "Sand", "SampleName", "Formation", "BoreholeID"]

/-- One `sample_stats` entry for the group `g` of sample `name`.
    `iloc[0]` reads the group's first row; groupby groups are never empty,
    so the `""` default for an empty list is unreachable. -/
def mkStatsRow (name : String) (g : List Reading) : StatsRow :=
  { D10 := (compute_d_values g).map (·.D10)
    D50 := (compute_d_values g).map (·.D50)
    D90 := (compute_d_values g).map (·.D90)
    Clay := (texture_fractions g).Clay
    Silt := (texture_fractions g).Silt
    Sand := (texture_fractions g).Sand
    SampleName := name
    Formation := (g.head?.map (·.Formation)).getD ""
    BoreholeID := (g.head?.map (·.BoreholeID)).getD "" }

/-- Sorted distinct sample names: the iteration order of
    `df2.groupby("SampleName")`. -/
def sampleNames (rs : List Reading) : List String :=
  List.insertionSort (· ≤ ·) (rs.map (·.SampleName)).dedup

/-- The precomputed `df_stats` table: one row per sample whose
    Percent_Volume sum is positive. -/
def df_stats (rs : List Reading) : List StatsRow :=
  (sampleNames rs).filterMap fun n =>
    if 0 < seriesSum (((rs.filter fun r => r.SampleName == n).map (·.Percent_Volume)))
    then some (mkStatsRow n (rs.filter fun r => r.SampleName == n)) else none

/-- Lexicographic order on (Formation, Size) group keys, the key order of
    `groupby(["Formation", "Size"])`. -/
def groupKeyLe (a b : String × ℚ) : Prop :=
  a.1 < b.1 ∨ (a.1 = b.1 ∧ a.2 ≤ b.2)

instance : DecidableRel groupKeyLe := fun a b =>
  inferInstanceAs (Decidable (a.1 < b.1 ∨ (a.1 = b.1 ∧ a.2 ≤ b.2)))

/-- Distinct (Formation, Size) keys in groupby order; rows with NaN Size
    carry no key (pandas drops NaN group keys). -/
def groupKeys (rs : List Reading) : List (String × ℚ) :=
  List.insertionSort groupKeyLe
    (rs.filterMap fun r => r.Size.map fun s => (r.Formation, s)).dedup

/-- Non-NaN Percent_Volume values of the rows in group (f, s). -/
def groupVals (rs : List Reading) (f : String) (s : ℚ) : List ℚ :=
  rs.filterMap fun r =>
    if r.Formation = f ∧ r.Size = some s then r.Percent_Volume else none

/-- Pandas `mean` aggregate: NaN entries are skipped, `none` (NaN) when no
    value remains. -/
def groupMean (l : List ℚ) : Option ℚ :=
  if l = [] then none else some (l.sum / l.length)

/-- Square of the pandas `std` aggregate (sample standard deviation,
    ddof = 1): sum of squared deviations about the mean divided by n - 1;
    `none` models the NaN std of a group with fewer than two values.  The
    dashboard's std is the square root of this number, which ℚ cannot
    carry exactly, and the claims constrain std only through its square or
    through its definedness. -/
def groupStdSq (l : List ℚ) : Option ℚ :=
  if l.length < 2 then none
  else some ((l.map fun x => (x - l.sum / l.length) ^ 2).sum / ((l.length : ℚ) - 1))

/-- One row of `mean_sd_df`. -/
structure GroupRow where
  Formation : String
  Size : ℚ
  mean : Option ℚ
  stdSq : Option ℚ
  deriving DecidableEq, Repr

/-- The precomputed table
    `mean_sd_df = df2.groupby(["Formation", "Size"])["Percent_Volume"].agg(["mean", "std"])`,
    with std represented through its square. -/
def mean_sd_df (rs : List Reading) : List GroupRow :=
  (groupKeys rs).map fun k =>
    { Formation := k.1
      Size := k.2
      mean := groupMean (groupVals rs k.1 k.2)
      stdSq := groupStdSq (groupVals rs k.1 k.2) }

/-- Result of the `update_dashboard` callback, with the three figures and
    the summary abstracted to the data they are drawn from: the filtered
    long table `dff`, the filtered `df_stats` rows and the filtered
    `mean_sd_df` rows.  `noData` stands for a branch returning the same
    empty figure for all three graphs plus a placeholder message. -/
inductive DashOut where
  | noData (msg : String)
  | views (dff : List Reading) (statsFiltered : List StatsRow) (meanSdFiltered : List GroupRow)
  deriving DecidableEq, Repr

/-- The `update_dashboard` callback over the precomputed tables `df2`,
    `df_stats` and `mean_sd_df` (passed explicitly in place of the script's
    module-level globals). -/
def update_dashboard (df2 : List Reading) (dfStats : List StatsRow)
    (meanSd : List GroupRow) (boreholes formations : List String) : DashOut :=
  if boreholes.isEmpty then DashOut.noData "No data selected"
  else
    let dff0 := df2.filter fun r => boreholes.contains r.BoreholeID
    let dff := if formations.isEmpty then dff0
      else dff0.filter fun r => formations.contains r.Formation
    let statsFiltered := if formations.isEmpty then
        dfStats.filter fun s => boreholes.contains s.BoreholeID
      else dfStats.filter fun s =>
        formations.contains s.Formation && boreholes.contains s.BoreholeID
    let meanSdFiltered := if formations.isEmpty then meanSd
      else meanSd.filter fun g => formations.contains g.Formation
    if dff.isEmpty || statsFiltered.isEmpty then
      DashOut.noData "No data for selected boreholes/formations"
    else DashOut.views dff statsFiltered meanSdFiltered

/-! Concrete tables used by the claims' scenarios. -/

/-- Shorthand for a long-form row. -/
def mkRow (bh f sn : String) (s p : Option ℚ) : Reading :=
  { BoreholeID := bh, Formation := f, SampleName := sn, depth := 0, Size := s, Percent_Volume := p }

/-- Sample "S1" of the percentile scenario: bins (1µm, 2%), (10µm, 40%), (100µm, 58%). -/
def sampleS1 : List Reading :=
  [mkRow "B" "F" "S1" (some 1) (some 2),
   mkRow "B" "F" "S1" (some 10) (some 40),
   mkRow "B" "F" "S1" (some 100) (some 58)]

/-- Sample of the texture scenario: bins (2µm, 5%), (50µm, 30%), (500µm, 65%). -/
def sampleTex : List Reading :=
  [mkRow "B" "F" "S" (some 2) (some 5),
   mkRow "B" "F" "S" (some 50) (some 30),
   mkRow "B" "F" "S" (some 500) (some 65)]

/-! ## C1: interpolated D50 and D10 of the concrete sample -/

/-- C1: on the sample whose valid readings are (1µm, 2%), (10µm, 40%),
    (100µm, 58%), `compute_d_values` returns
    D50 = 10 + (50-42)/(100-42)*(100-10) and
    D10 = 1 + (10-2)/(42-2)*(10-1) = 2.8µm, the linear interpolation of
    Size against the running cumulative percent. -/
theorem c1_d_values_of_sampleS1 :
    ((compute_d_values sampleS1).map fun v => (v.D10, v.D50))
      = some (1 + (10 - 2)/(42 - 2)*(10 - 1), 10 + (50 - 42)/(100 - 42)*(100 - 10))
    ∧ (1 + (10 - 2)/(42 - 2)*(10 - 1) : ℚ) = 2.8 := by
  constructor
  · norm_num [compute_d_values, sampleS1, mkRow, sortedPairs, validPairs, sizeLe,
      List.insertionSort, List.orderedInsert, cumPairs, interpPts]
  · norm_num

/-! ## C3: texture fractions -/

/-- Summing a filtered Percent_Volume column equals summing the per-row
    contribution `if the mask holds then the (NaN-defaulted) value else 0`. -/
theorem seriesSum_filter (m : Reading → Bool) (rs : List Reading) :
    seriesSum ((rs.filter m).map (·.Percent_Volume))
      = (rs.map fun r => if m r then r.Percent_Volume.getD 0 else 0).sum := by
  induction rs with
  | nil => simp [seriesSum]
  | cons r rs ih =>
    cases hm : m r <;> simp [List.filter_cons, hm, seriesSum, ← ih]

/-- C3: for every sample, `texture_fractions` returns Clay = the sum of
    PercentVolume over readings with Size < 4, Silt = the sum over
    4 ≤ Size < 63 and Sand = the sum over 63 ≤ Size ≤ 2000, a missing
    PercentVolume contributing 0; on the bins (2µm, 5%), (50µm, 30%),
    (500µm, 65%) this yields Clay = 5, Silt = 30, Sand = 65. -/
theorem c3_texture_fractions :
    (∀ rs : List Reading,
      (texture_fractions rs).Clay
        = (rs.map fun r => match r.Size with
            | some s => if s < 4 then r.Percent_Volume.getD 0 else 0
            | none => 0).sum
      ∧ (texture_fractions rs).Silt
        = (rs.map fun r => match r.Size with
            | some s => if 4 ≤ s ∧ s < 63 then r.Percent_Volume.getD 0 else 0
            | none => 0).sum
      ∧ (texture_fractions rs).Sand
        = (rs.map fun r => match r.Size with
            | some s => if 63 ≤ s ∧ s ≤ 2000 then r.Percent_Volume.getD 0 else 0
            | none => 0).sum)
    ∧ texture_fractions sampleTex = { Clay := 5, Silt := 30, Sand := 65 } := by
  constructor
  · intro rs
    refine ⟨?_, ?_, ?_⟩ <;>
    · simp only [texture_fractions]
      rw [seriesSum_filter]
      refine congrArg List.sum (List.map_congr_left fun r _ => ?_)
      cases hs : r.Size <;> simp [clayMask, siltMask, sandMask, hs]
  · norm_num [texture_fractions, sampleTex, mkRow, clayMask, siltMask, sandMask,
      seriesSum, List.filter]

/-! ## C7: a single valid point clamps every percentile to its Size -/

/-- C7: a sample whose valid (Size, PercentVolume) readings are exactly the
    one pair (s, p) gets that Size back for D10, D50 and D90: clamped
    interpolation repeats the single endpoint rather than failing. -/
theorem c7_single_point_clamps (rs : List Reading) (s p : ℚ)
    (h : validPairs rs = [(s, p)]) :
    compute_d_values rs = some { D10 := s, D50 := s, D90 := s } := by
  simp [compute_d_values, sortedPairs, h, List.insertionSort, List.orderedInsert,
    cumPairs, interpPts]

/-- Sample with one valid reading (7µm, 20%) and one reading invalid in each
    coordinate. -/
def sampleSingle : List Reading :=
  [mkRow "B" "F" "S" (some 3) none,
   mkRow "B" "F" "S" (some 7) (some 20),
   mkRow "B" "F" "S" none (some 9)]

theorem c7_single_point_clamps_witness :
    validPairs sampleSingle = [(7, 20)]
    ∧ compute_d_values sampleSingle = some { D10 := 7, D50 := 7, D90 := 7 } :=
  ⟨rfl, c7_single_point_clamps sampleSingle 7 20 rfl⟩

/-! ## C4: sample standard deviation of the group aggregator -/

/-- Two samples of formation "F" at Size = 10µm with values 40% and 44%. -/
def twoSampleTable : List Reading :=
  [mkRow "B1" "F" "S1" (some 10) (some 40),
   mkRow "B2" "F" "S2" (some 10) (some 44)]

/-- One single sample of formation "F" at Size = 10µm. -/
def oneSampleTable : List Reading :=
  [mkRow "B1" "F" "S1" (some 10) (some 40)]

/-- C4: the group aggregator's standard deviation is the sample (n-1
    denominator) statistic: a (Formation, Size) group with exactly one
    contributing value has an undefined (NaN, here `none`) std, and the
    group with the two values 40 and 44 has mean 42 and squared std
    ((40-42)^2 + (44-42)^2)/(2-1) = 8, i.e. std = sqrt 8 ≈ 2.83. -/
theorem c4_sample_std :
    (∀ (rs : List Reading) (row : GroupRow), row ∈ mean_sd_df rs →
      (groupVals rs row.Formation row.Size).length = 1 → row.stdSq = none)
    ∧ mean_sd_df twoSampleTable
      = [{ Formation := "F", Size := 10, mean := some 42,
           stdSq := some (((40 - 42) ^ 2 + (44 - 42) ^ 2) / (2 - 1)) }] := by
  constructor
  · intro rs row hrow h1
    rw [mean_sd_df] at hrow
    obtain ⟨k, hk, rfl⟩ := List.mem_map.1 hrow
    simp only at h1 ⊢
    simp [groupStdSq, h1]
  · norm_num [mean_sd_df, groupKeys, groupVals, groupMean, groupStdSq,
      twoSampleTable, mkRow, List.insertionSort, List.orderedInsert, groupKeyLe,
      List.dedup, List.pwFilter, List.filterMap]
    simp

theorem c4_sample_std_witness :
    ({ Formation := "F", Size := 10, mean := some 40, stdSq := none } : GroupRow)
        ∈ mean_sd_df oneSampleTable
    ∧ (groupVals oneSampleTable "F" 10).length = 1
    ∧ ({ Formation := "F", Size := 10, mean := some 40, stdSq := none } : GroupRow).stdSq
        = none := by
  have h1 : mean_sd_df oneSampleTable
      = [{ Formation := "F", Size := 10, mean := some 40, stdSq := none }] := by
    norm_num [mean_sd_df, groupKeys, groupVals, groupMean, groupStdSq,
      oneSampleTable, mkRow, List.insertionSort, List.orderedInsert, groupKeyLe,
      List.dedup, List.pwFilter, List.filterMap]
  have h2 : (groupVals oneSampleTable "F" 10).length = 1 := by
    norm_num [groupVals, oneSampleTable, mkRow, List.filterMap]
  exact ⟨by rw [h1]; exact List.mem_singleton.2 rfl, h2,
    c4_sample_std.1 oneSampleTable _ (by rw [h1]; exact List.mem_singleton.2 rfl) h2⟩

/-- Per-sample stats row of sample "S1" of `twoSampleTable`. -/
def statsS1 : StatsRow :=
  { D10 := some 10, D50 := some 10, D90 := some 10, Clay := 0, Silt := 40, Sand := 0,
    SampleName := "S1", Formation := "F", BoreholeID := "B1" }

/-- Per-sample stats row of sample "S2" of `twoSampleTable`. -/
def statsS2 : StatsRow :=
  { D10 := some 10, D50 := some 10, D90 := some 10, Clay := 0, Silt := 44, Sand := 0,
    SampleName := "S2", Formation := "F", BoreholeID := "B2" }

/-- Full-table group row of `twoSampleTable`: mean over both boreholes. -/
def groupRowBoth : GroupRow := { Formation := "F", Size := 10, mean := some 42, stdSq := some 8 }

/-- Group row recomputed over the borehole-B1 subset of `twoSampleTable`. -/
def groupRowB1 : GroupRow := { Formation := "F", Size := 10, mean := some 40, stdSq := none }

theorem df_stats_twoSampleTable : df_stats twoSampleTable = [statsS1, statsS2] := by
  have h1 : ("S1" : String) ≤ "S2" := by simp; decide
  have e1 : (("S2" : String) == "S1") = false := by decide
  have e2 : (("S1" : String) == "S2") = false := by decide
  norm_num [df_stats, sampleNames, mkStatsRow, compute_d_values, sortedPairs, validPairs,
    sizeLe, List.insertionSort, List.orderedInsert, cumPairs, interpPts, texture_fractions,
    clayMask, siltMask, sandMask, seriesSum, List.filter, List.filterMap, List.dedup,
    List.pwFilter, twoSampleTable, mkRow, h1, e1, e2, statsS1, statsS2]

theorem mean_sd_twoSampleTable : mean_sd_df twoSampleTable = [groupRowBoth] := by
  norm_num [mean_sd_df, groupKeys, groupVals, groupMean, groupStdSq, twoSampleTable, mkRow,
    List.insertionSort, List.orderedInsert, groupKeyLe, List.dedup, List.pwFilter,
    List.filterMap, groupRowBoth]
  simp

theorem update_dashboard_twoSampleTable :
    update_dashboard twoSampleTable (df_stats twoSampleTable) (mean_sd_df twoSampleTable)
        ["B1"] ["F"]
      = DashOut.views [mkRow "B1" "F" "S1" (some 10) (some 40)] [statsS1] [groupRowBoth] := by
  rw [df_stats_twoSampleTable, mean_sd_twoSampleTable]
  have e3 : ¬ (("B2" : String) = "B1") := by decide
  norm_num [update_dashboard, twoSampleTable, mkRow, List.filter, statsS1, statsS2,
    groupRowBoth, e3]

/-- C5: selecting zero boreholes returns the explicit no-data placeholder
    (serving all three output views) and never raises; with boreholes
    selected, an empty formation filter leaves the formation facet
    unrestricted, and a non-empty one composes with the borehole facet by
    AND on both the long table and the stats table. -/
theorem c5_empty_selection_pass_through :
    (∀ (df2 : List Reading) (st : List StatsRow) (msd : List GroupRow)
        (fms : List String),
      update_dashboard df2 st msd [] fms = DashOut.noData "No data selected")
    ∧ (∀ (df2 : List Reading) (st : List StatsRow) (msd : List GroupRow)
        (bhs fms : List String) (dff : List Reading) (sf : List StatsRow)
        (msdF : List GroupRow),
      update_dashboard df2 st msd bhs fms = DashOut.views dff sf msdF →
        (fms = [] →
          dff = df2.filter (fun r => bhs.contains r.BoreholeID)
          ∧ sf = st.filter (fun s => bhs.contains s.BoreholeID))
        ∧ (fms ≠ [] →
          dff = df2.filter
              (fun r => bhs.contains r.BoreholeID && fms.contains r.Formation)
          ∧ sf = st.filter
              (fun s => fms.contains s.Formation && bhs.contains s.BoreholeID))) := by
  constructor
  · intro df2 st msd fms
    rfl
  · intro df2 st msd bhs fms dff sf msdF h
    cases bhs with
    | nil => simp [update_dashboard] at h
    | cons b bs =>
      cases fms with
      | nil =>
        refine ⟨fun _ => ?_, fun hne => absurd rfl hne⟩
        simp only [update_dashboard, List.isEmpty_cons, Bool.false_eq_true, if_false,
          List.isEmpty_nil, if_true] at h
        split at h
        · exact absurd h (by simp)
        · cases h
          exact ⟨rfl, rfl⟩
      | cons f fs =>
        refine ⟨fun he => absurd he (List.cons_ne_nil f fs), fun _ => ?_⟩
        simp only [update_dashboard, List.isEmpty_cons, Bool.false_eq_true, if_false] at h
        split at h
        · exact absurd h (by simp)
        · cases h
          constructor
          · rw [List.filter_filter]
            exact List.filter_congr fun r _ => Bool.and_comm _ _
          · rfl

theorem c5_empty_selection_pass_through_witness :
    update_dashboard twoSampleTable (df_stats twoSampleTable) (mean_sd_df twoSampleTable)
        ["B1"] ["F"]
      = DashOut.views [mkRow "B1" "F" "S1" (some 10) (some 40)] [statsS1] [groupRowBoth]
    ∧ (["F"] : List String) ≠ []
    ∧ [mkRow "B1" "F" "S1" (some 10) (some 40)]
        = twoSampleTable.filter
            (fun r => (["B1"] : List String).contains r.BoreholeID
              && (["F"] : List String).contains r.Formation)
    ∧ [statsS1]
        = (df_stats twoSampleTable).filter
            (fun s => (["F"] : List String).contains s.Formation
              && (["B1"] : List String).contains s.BoreholeID) :=
  have h := update_dashboard_twoSampleTable
  have hne : (["F"] : List String) ≠ [] := by simp
  ⟨h, hne,
   ((c5_empty_selection_pass_through.2 _ _ _ _ _ _ _ _ h).2 hne).1,
   ((c5_empty_selection_pass_through.2 _ _ _ _ _ _ _ _ h).2 hne).2⟩

theorem filter_twoSampleTable_B1F :
    twoSampleTable.filter
        (fun r => (["B1"] : List String).contains r.BoreholeID
          && (["F"] : List String).contains r.Formation)
      = oneSampleTable := by
  have e1 : ¬ (("B2" : String) = "B1") := by decide
  have e2 : ¬ (("B1" : String) = "B2") := by decide
  norm_num [twoSampleTable, oneSampleTable, mkRow, List.filter, e1, e2]

theorem mean_sd_oneSampleTable : mean_sd_df oneSampleTable = [groupRowB1] := by
  norm_num [mean_sd_df, groupKeys, groupVals, groupMean, groupStdSq, oneSampleTable, mkRow,
    List.insertionSort, List.orderedInsert, groupKeyLe, List.dedup, List.pwFilter,
    List.filterMap, groupRowB1]

/-- C2 counterexample: with boreholes = ["B1"] and formations = ["F"] on a
    table whose formation "F" spans boreholes B1 (value 40) and B2 (value
    44), the dashboard delivers the precomputed full-table group row with
    mean 42, while the per-(Formation, Size) statistics of the filtered
    subset (borehole B1 only) have mean 40: the delivered rows are not
    computed over the filtered subset. -/
theorem c2_counterexample_mean_not_filtered :
    update_dashboard twoSampleTable (df_stats twoSampleTable) (mean_sd_df twoSampleTable)
        ["B1"] ["F"]
      = DashOut.views [mkRow "B1" "F" "S1" (some 10) (some 40)] [statsS1] [groupRowBoth]
    ∧ mean_sd_df (twoSampleTable.filter
        (fun r => (["B1"] : List String).contains r.BoreholeID
          && (["F"] : List String).contains r.Formation))
      = [groupRowB1]
    ∧ groupRowBoth.mean = some 42
    ∧ groupRowB1.mean = some 40
    ∧ groupRowBoth ≠ groupRowB1 := by
  refine ⟨update_dashboard_twoSampleTable, ?_, rfl, rfl, ?_⟩
  · rw [filter_twoSampleTable_B1F, mean_sd_oneSampleTable]
  · norm_num [groupRowBoth, groupRowB1, GroupRow.mk.injEq]

/-- C2 amended: the GroupStats rows delivered to the mean±SD view are the
    precomputed full-table `mean_sd_df` rows, passed through unfiltered
    when no formation is selected and filtered by Formation membership
    only otherwise; the borehole selection never restricts them and they
    are not recomputed from the filtered subset. -/
theorem c2_amended_mean_sd_formation_only :
    ∀ (df2 : List Reading) (bhs fms : List String) (dff : List Reading)
      (sf : List StatsRow) (msdF : List GroupRow),
      update_dashboard df2 (df_stats df2) (mean_sd_df df2) bhs fms
          = DashOut.views dff sf msdF →
        (fms = [] → msdF = mean_sd_df df2)
        ∧ (fms ≠ [] →
            msdF = (mean_sd_df df2).filter fun g => fms.contains g.Formation) := by
  intro df2 bhs fms dff sf msdF h
  cases bhs with
  | nil => simp [update_dashboard] at h
  | cons b bs =>
    cases fms with
    | nil =>
      refine ⟨fun _ => ?_, fun hne => absurd rfl hne⟩
      simp only [update_dashboard, List.isEmpty_cons, Bool.false_eq_true, if_false,
        List.isEmpty_nil, if_true] at h
      split at h
      · exact absurd h (by simp)
      · cases h
        rfl
    | cons f fs =>
      refine ⟨fun he => absurd he (List.cons_ne_nil f fs), fun _ => ?_⟩
      simp only [update_dashboard, List.isEmpty_cons, Bool.false_eq_true, if_false] at h
      split at h
      · exact absurd h (by simp)
      · cases h
        rfl

theorem c2_amended_mean_sd_formation_only_witness :
    update_dashboard twoSampleTable (df_stats twoSampleTable) (mean_sd_df twoSampleTable)
        ["B1"] ["F"]
      = DashOut.views [mkRow "B1" "F" "S1" (some 10) (some 40)] [statsS1] [groupRowBoth]
    ∧ (["F"] : List String) ≠ []
    ∧ [groupRowBoth]
        = (mean_sd_df twoSampleTable).filter
            (fun g => (["F"] : List String).contains g.Formation) :=
  ⟨update_dashboard_twoSampleTable, by simp,
   (c2_amended_mean_sd_formation_only _ _ _ _ _ _ update_dashboard_twoSampleTable).2
     (by simp)⟩

/-- C9 counterexample: a `sample_stats` row carries exactly the keys D10,
    D50, D90, Clay, Silt, Sand, SampleName, Formation and BoreholeID — no
    DepthBinLabel (nor DepthBin) field exists anywhere in the pipeline, so
    no depth bin `floor(depth / 5) * 5` is ever computed. -/
theorem c9_counterexample_no_depth_field :
    "DepthBinLabel" ∉ statsRowFields ∧ "DepthBin" ∉ statsRowFields := by decide

/-- C9 amended: every `df_stats` row copies Formation and BoreholeID from
    the first reading of its sample's group; the row set of fields contains
    no DepthBinLabel (the script computes no depth bins at all). -/
theorem c9_amended_first_reading_metadata (rs : List Reading) (row : StatsRow)
    (h : row ∈ df_stats rs) :
    ∃ r0 rest, rs.filter (fun r => r.SampleName == row.SampleName) = r0 :: rest
      ∧ row.Formation = r0.Formation ∧ row.BoreholeID = r0.BoreholeID
      ∧ "DepthBinLabel" ∉ statsRowFields := by
  rw [df_stats] at h
  obtain ⟨n, hn, hsome⟩ := List.mem_filterMap.1 h
  split at hsome
  case isFalse => exact absurd hsome (by simp)
  case isTrue hpos =>
    cases hsome
    cases hg : rs.filter (fun r => r.SampleName == n) with
    | nil => rw [hg] at hpos; simp [seriesSum] at hpos
    | cons r0 rest =>
      refine ⟨r0, rest, ?_, ?_, ?_, by decide⟩
      · simpa [mkStatsRow] using hg
      · simp [mkStatsRow, hg]
      · simp [mkStatsRow, hg]

theorem c9_amended_first_reading_metadata_witness :
    statsS1 ∈ df_stats twoSampleTable
    ∧ ∃ r0 rest,
        twoSampleTable.filter (fun r => r.SampleName == statsS1.SampleName) = r0 :: rest
        ∧ statsS1.Formation = r0.Formation ∧ statsS1.BoreholeID = r0.BoreholeID
        ∧ "DepthBinLabel" ∉ statsRowFields :=
  have hm : statsS1 ∈ df_stats twoSampleTable := by
    rw [df_stats_twoSampleTable]
    exact List.mem_cons_self _ _
  ⟨hm, c9_amended_first_reading_metadata twoSampleTable statsS1 hm⟩

/-! ## Order lemmas for the cumulative curve and the interpolation -/

/-- Companion order on cumulative pairs: compare second components. -/
def sndLe (a b : ℚ × ℚ) : Prop := a.2 ≤ b.2

instance : IsTotal (ℚ × ℚ) sizeLe := ⟨fun a b => le_total a.1 b.1⟩

instance : IsTrans (ℚ × ℚ) sizeLe := ⟨fun _ _ _ h1 h2 => le_trans h1 h2⟩

theorem sortedPairs_chain (rs : List Reading) : (sortedPairs rs).Chain' sizeLe :=
  (List.sorted_insertionSort sizeLe (validPairs rs)).chain'

theorem cumPairs_chain_fst (l : List (ℚ × ℚ)) (h : ∀ e ∈ l, 0 ≤ e.2) :
    ∀ acc : ℚ, (cumPairs acc l).Chain' sizeLe := by
  induction l with
  | nil => intro acc; simp [cumPairs]
  | cons e t ih =>
    intro acc
    obtain ⟨s, p⟩ := e
    cases t with
    | nil => simp [cumPairs]
    | cons e' t' =>
      obtain ⟨s', p'⟩ := e'
      have h0 : (0 : ℚ) ≤ p' := by simpa using h (s', p') (by simp)
      have htail := ih (fun e he => h e (List.mem_cons_of_mem _ he)) (acc + p)
      simp only [cumPairs] at htail ⊢
      exact List.chain'_cons.2 ⟨by simpa [sizeLe] using by linarith, htail⟩

theorem cumPairs_chain_snd (l : List (ℚ × ℚ)) (h : l.Chain' sizeLe) :
    ∀ acc : ℚ, (cumPairs acc l).Chain' sndLe := by
  induction l with
  | nil => intro acc; simp [cumPairs]
  | cons e t ih =>
    intro acc
    obtain ⟨s, p⟩ := e
    cases t with
    | nil => simp [cumPairs]
    | cons e' t' =>
      obtain ⟨s', p'⟩ := e'
      have h1 : (s : ℚ) ≤ s' := (List.chain'_cons.1 h).1
      have htail := ih (List.chain'_cons.1 h).2 (acc + p)
      simp only [cumPairs] at htail ⊢
      exact List.chain'_cons.2 ⟨h1, htail⟩

theorem chain_fst_head_le_getLast :
    ∀ (l : List (ℚ × ℚ)) (a e : ℚ × ℚ), (a :: l).Chain' sizeLe →
      (a :: l).getLast? = some e → a.1 ≤ e.1 := by
  intro l
  induction l with
  | nil =>
    intro a e _ hl
    simp only [List.getLast?_singleton, Option.some.injEq] at hl
    exact hl ▸ le_refl _
  | cons a' t ih =>
    intro a e hc hl
    have h1 : sizeLe a a' := (List.chain'_cons.1 hc).1
    have h2 := ih a' e (List.chain'_cons.1 hc).2 (by simpa [List.getLast?_cons_cons] using hl)
    exact le_trans h1 h2

/-- Left of the key range, `np.interp` returns the first value. -/
theorem interpPts_of_lt_head (x : ℚ) (e : ℚ × ℚ) (l : List (ℚ × ℚ))
    (hc : (e :: l).Chain' sizeLe) (hx : x < e.1) :
    interpPts x (e :: l) = e.2 := by
  cases l with
  | nil => rfl
  | cons e' t =>
    have h1 : sizeLe e e' := (List.chain'_cons.1 hc).1
    simp [interpPts, lt_of_lt_of_le hx h1, le_of_lt hx]

/-- Right of (or at) the last key, `np.interp` returns the last value. -/
theorem interpPts_of_getLast_le (x : ℚ) :
    ∀ (l : List (ℚ × ℚ)) (e : ℚ × ℚ), l.getLast? = some e →
      l.Chain' sizeLe → e.1 ≤ x → interpPts x l = e.2 := by
  intro l
  induction l with
  | nil => intro e hl; simp at hl
  | cons a t ih =>
    intro e hl hc hx
    cases t with
    | nil =>
      simp only [List.getLast?_singleton, Option.some.injEq] at hl
      rw [← hl]
      rfl
    | cons a' t' =>
      have hl' : (a' :: t').getLast? = some e := by
        simpa [List.getLast?_cons_cons] using hl
      have ha' : a'.1 ≤ e.1 :=
        chain_fst_head_le_getLast t' a' e (List.chain'_cons.1 hc).2 hl'
      have hnot : ¬ x < a'.1 := not_lt.2 (le_trans ha' hx)
      simp only [interpPts, if_neg hnot]
      exact ih e hl' (List.chain'_cons.1 hc).2 hx

theorem sortedPairs_snd_nonneg (rs : List Reading)
    (h : ∀ r ∈ rs, 0 ≤ r.Percent_Volume.getD 0) :
    ∀ e ∈ sortedPairs rs, 0 ≤ e.2 := by
  intro e he
  have hv : e ∈ validPairs rs := (List.perm_insertionSort sizeLe (validPairs rs)).mem_iff.1 he
  obtain ⟨r, hr, hEq⟩ := List.mem_filterMap.1 hv
  cases hs : r.Size with
  | none => rw [hs] at hEq; simp at hEq
  | some s =>
    cases hp : r.Percent_Volume with
    | none => rw [hs, hp] at hEq; simp at hEq
    | some p =>
      rw [hs, hp] at hEq
      simp only [Option.some.injEq] at hEq
      have hnn := h r hr
      rw [hp] at hnn
      simpa [← hEq] using hnn

theorem compute_d_values_of_ne_nil (rs : List Reading)
    (h : cumPairs 0 (sortedPairs rs) ≠ []) :
    compute_d_values rs = some
      { D10 := interpPts 10 (cumPairs 0 (sortedPairs rs)),
        D50 := interpPts 50 (cumPairs 0 (sortedPairs rs)),
        D90 := interpPts 90 (cumPairs 0 (sortedPairs rs)) } := by
  simp [compute_d_values, List.isEmpty_iff, h]

/-- Sample with bins (1µm, 2%), (10µm, 38%): total volume 40, so the 50 and
    90 targets lie above the cumulative range. -/
def sampleC10 : List Reading :=
  [mkRow "B" "F" "S" (some 1) (some 2),
   mkRow "B" "F" "S" (some 10) (some 38)]

/-- C10 counterexample: on a sample whose cumulative range is [2, 40], the
    out-of-range targets 50 and 90 produce the defined value 10µm (the last
    Size, clamped), not a missing/NaN result. -/
theorem c10_counterexample_clamped_values :
    compute_d_values sampleC10
      = some { D10 := 1 + (10 - 2)/(40 - 2)*(10 - 1), D50 := 10, D90 := 10 }
    ∧ compute_d_values sampleC10 ≠ none := by
  have h1 : compute_d_values sampleC10
      = some { D10 := 1 + (10 - 2)/(40 - 2)*(10 - 1), D50 := 10, D90 := 10 } := by
    norm_num [compute_d_values, sampleC10, mkRow, sortedPairs, validPairs, sizeLe,
      List.insertionSort, List.orderedInsert, cumPairs, interpPts]
  refine ⟨h1, ?_⟩
  rw [h1]
  exact Option.some_ne_none _

/-- C10 amended: whichever of the targets 10, 50 and 90 lies outside the
    sample's cumulative percent-volume range, the corresponding D-value
    clamps to an endpoint Size: the last Size when the target is at or
    above the last cumulative value, the first Size when it is below the
    first one — a defined value, not a missing/NaN one. -/
theorem c10_amended_out_of_range_clamps (rs : List Reading)
    (hnn : ∀ r ∈ rs, 0 ≤ r.Percent_Volume.getD 0)
    (v : DValues) (hv : compute_d_values rs = some v) :
    (∀ e : ℚ × ℚ, (cumPairs 0 (sortedPairs rs)).getLast? = some e →
      (e.1 ≤ 10 → v.D10 = e.2) ∧ (e.1 ≤ 50 → v.D50 = e.2) ∧ (e.1 ≤ 90 → v.D90 = e.2))
    ∧ (∀ e : ℚ × ℚ, (cumPairs 0 (sortedPairs rs)).head? = some e →
      (10 < e.1 → v.D10 = e.2) ∧ (50 < e.1 → v.D50 = e.2) ∧ (90 < e.1 → v.D90 = e.2)) := by
  have hch : (cumPairs 0 (sortedPairs rs)).Chain' sizeLe :=
    cumPairs_chain_fst _ (sortedPairs_snd_nonneg rs hnn) 0
  constructor
  · intro e hl
    have hne : cumPairs 0 (sortedPairs rs) ≠ [] := by
      intro h0
      rw [h0] at hl
      simp at hl
    rw [compute_d_values_of_ne_nil rs hne] at hv
    cases hv
    exact ⟨fun h => interpPts_of_getLast_le 10 _ e hl hch h,
      fun h => interpPts_of_getLast_le 50 _ e hl hch h,
      fun h => interpPts_of_getLast_le 90 _ e hl hch h⟩
  · intro e hh
    have hne : cumPairs 0 (sortedPairs rs) ≠ [] := by
      intro h0
      rw [h0] at hh
      simp at hh
    rw [compute_d_values_of_ne_nil rs hne] at hv
    cases hv
    obtain ⟨t, ht⟩ : ∃ t, cumPairs 0 (sortedPairs rs) = e :: t := by
      cases hcl : cumPairs 0 (sortedPairs rs) with
      | nil => rw [hcl] at hh; simp at hh
      | cons a t =>
        rw [hcl] at hh
        simp only [List.head?_cons, Option.some.injEq] at hh
        exact ⟨t, by rw [hh]⟩
    rw [ht] at hch
    refine ⟨fun h => ?_, fun h => ?_, fun h => ?_⟩ <;>
    · show interpPts _ (cumPairs 0 (sortedPairs rs)) = e.2
      rw [ht]
      exact interpPts_of_lt_head _ e t hch h

theorem c10_amended_out_of_range_clamps_witness :
    (∀ r ∈ sampleC10, 0 ≤ r.Percent_Volume.getD 0)
    ∧ compute_d_values sampleC10 = some { D10 := 55/19, D50 := 10, D90 := 10 }
    ∧ (cumPairs 0 (sortedPairs sampleC10)).getLast? = some (40, 10)
    ∧ (40 : ℚ) ≤ 50
    ∧ (40 : ℚ) ≤ 90
    ∧ ({ D10 := 55/19, D50 := 10, D90 := 10 } : DValues).D50 = 10
    ∧ ({ D10 := 55/19, D50 := 10, D90 := 10 } : DValues).D90 = 10 := by
  have h1 : ∀ r ∈ sampleC10, 0 ≤ r.Percent_Volume.getD 0 := by
    intro r hr
    fin_cases hr <;> norm_num [mkRow]
  have h2 : compute_d_values sampleC10 = some { D10 := 55/19, D50 := 10, D90 := 10 } := by
    norm_num [compute_d_values, sampleC10, mkRow, sortedPairs, validPairs, sizeLe,
      List.insertionSort, List.orderedInsert, cumPairs, interpPts]
  have h3 : (cumPairs 0 (sortedPairs sampleC10)).getLast? = some (40, 10) := by
    norm_num [sampleC10, mkRow, sortedPairs, validPairs, sizeLe,
      List.insertionSort, List.orderedInsert, cumPairs]
  have h4 := (c10_amended_out_of_range_clamps sampleC10 h1 _ h2).1 (40, 10) h3
  exact ⟨h1, h2, h3, by norm_num, by norm_num, h4.2.1 (by norm_num), h4.2.2 (by norm_num)⟩

/-- At or beyond the head key, the interpolant is at least the head value
    (both coordinates non-decreasing along the list). -/
theorem head_snd_le_interpPts (x : ℚ) :
    ∀ (l : List (ℚ × ℚ)) (e : ℚ × ℚ), l.head? = some e →
      l.Chain' sizeLe → l.Chain' sndLe → e.1 ≤ x → e.2 ≤ interpPts x l := by
  intro l
  induction l with
  | nil => intro e he _ _ _; simp at he
  | cons a t ih =>
    intro e he hcf hcs hex
    simp only [List.head?_cons, Option.some.injEq] at he
    subst he
    cases t with
    | nil => simp [interpPts]
    | cons a' t' =>
      by_cases hlt : x < a'.1
      · by_cases hle : x ≤ a.1
        · simp [interpPts, hlt, hle]
        · simp only [interpPts, if_pos hlt, if_neg hle]
          have h21 : a.2 ≤ a'.2 := (List.chain'_cons.1 hcs).1
          have h11 : a.1 < x := lt_of_not_le hle
          have hnn : 0 ≤ (a'.2 - a.2) * (x - a.1) / (a'.1 - a.1) :=
            div_nonneg (mul_nonneg (by linarith) (by linarith)) (by linarith)
          linarith
      · simp only [interpPts, if_neg hlt]
        have h1 : a'.1 ≤ x := not_lt.1 hlt
        have h2 : a.2 ≤ a'.2 := (List.chain'_cons.1 hcs).1
        exact le_trans h2
          (ih a' (by simp) (List.chain'_cons.1 hcf).2 (List.chain'_cons.1 hcs).2 h1)

/-- Monotonicity of the piecewise-linear lookup: with keys and values both
    non-decreasing, the interpolant is non-decreasing in the probe. -/
theorem interpPts_mono :
    ∀ (l : List (ℚ × ℚ)), l.Chain' sizeLe → l.Chain' sndLe →
      ∀ {t₁ t₂ : ℚ}, t₁ ≤ t₂ → interpPts t₁ l ≤ interpPts t₂ l := by
  intro l
  induction l with
  | nil => intro _ _ t₁ t₂ _; simp [interpPts]
  | cons a t ih =>
    intro hcf hcs t₁ t₂ h12
    cases t with
    | nil => simp [interpPts]
    | cons a' t' =>
      have haa : a.1 ≤ a'.1 := (List.chain'_cons.1 hcf).1
      have hbb : a.2 ≤ a'.2 := (List.chain'_cons.1 hcs).1
      by_cases h2 : t₂ < a'.1
      · have h1 : t₁ < a'.1 := lt_of_le_of_lt h12 h2
        by_cases h2e : t₂ ≤ a.1
        · have h1e : t₁ ≤ a.1 := le_trans h12 h2e
          simp [interpPts, h1, h2, h1e, h2e]
        · have ha2 : a.1 < t₂ := lt_of_not_le h2e
          by_cases h1e : t₁ ≤ a.1
          · simp only [interpPts, if_pos h1, if_pos h2, if_pos h1e, if_neg h2e]
            have hnn : 0 ≤ (a'.2 - a.2) * (t₂ - a.1) / (a'.1 - a.1) :=
              div_nonneg (mul_nonneg (by linarith) (by linarith)) (by linarith)
            linarith
          · simp only [interpPts, if_pos h1, if_pos h2, if_neg h1e, if_neg h2e]
            have ha1 : a.1 < t₁ := lt_of_not_le h1e
            have hd : 0 < a'.1 - a.1 := by linarith
            have hmul : (a'.2 - a.2) * (t₁ - a.1) ≤ (a'.2 - a.2) * (t₂ - a.1) :=
              mul_le_mul_of_nonneg_left (by linarith) (by linarith)
            have hdiv := (div_le_div_iff_of_pos_right hd).2 hmul
            linarith
      · have h2' : a'.1 ≤ t₂ := not_lt.1 h2
        by_cases h1 : t₁ < a'.1
        · have hub : interpPts t₁ (a :: a' :: t') ≤ a'.2 := by
            by_cases h1e : t₁ ≤ a.1
            · simp only [interpPts, if_pos h1, if_pos h1e]
              exact hbb
            · simp only [interpPts, if_pos h1, if_neg h1e]
              have ha1 : a.1 < t₁ := lt_of_not_le h1e
              have hd : 0 < a'.1 - a.1 := by linarith
              have hmul : (a'.2 - a.2) * (t₁ - a.1) ≤ (a'.2 - a.2) * (a'.1 - a.1) :=
                mul_le_mul_of_nonneg_left (by linarith) (by linarith)
              have hdiv := (div_le_div_iff_of_pos_right hd).2 hmul
              have hcan : (a'.2 - a.2) * (a'.1 - a.1) / (a'.1 - a.1) = a'.2 - a.2 :=
                mul_div_cancel_right₀ _ (ne_of_gt hd)
              rw [hcan] at hdiv
              linarith
          have hlb : a'.2 ≤ interpPts t₂ (a' :: t') :=
            head_snd_le_interpPts t₂ (a' :: t') a' (by simp)
              (List.chain'_cons.1 hcf).2 (List.chain'_cons.1 hcs).2 h2'
          calc interpPts t₁ (a :: a' :: t') ≤ a'.2 := hub
            _ ≤ interpPts t₂ (a' :: t') := hlb
            _ = interpPts t₂ (a :: a' :: t') := by simp only [interpPts, if_neg h2]
        · simp only [interpPts, if_neg h1, if_neg h2]
          exact ih (List.chain'_cons.1 hcf).2 (List.chain'_cons.1 hcs).2 h12

/-- C6: for a sample whose valid readings have positive total PercentVolume
    and all PercentVolume values non-negative (so the cumulative curve is
    non-decreasing in Size), the percentile engine succeeds and its results
    satisfy D10 ≤ D50 ≤ D90. -/
theorem c6_percentiles_ordered (rs : List Reading)
    (hnn : ∀ r ∈ rs, 0 ≤ r.Percent_Volume.getD 0)
    (hpos : 0 < ((validPairs rs).map Prod.snd).sum) :
    ∃ v, compute_d_values rs = some v ∧ v.D10 ≤ v.D50 ∧ v.D50 ≤ v.D90 := by
  have hvne : validPairs rs ≠ [] := by
    intro h0
    rw [h0] at hpos
    simp at hpos
  have hsne : sortedPairs rs ≠ [] := by
    intro h0
    have hp := List.perm_insertionSort sizeLe (validPairs rs)
    rw [sortedPairs] at h0
    rw [h0] at hp
    exact hvne hp.symm.eq_nil
  have hcne : cumPairs 0 (sortedPairs rs) ≠ [] := by
    cases hs : sortedPairs rs with
    | nil => exact absurd hs hsne
    | cons a t =>
      obtain ⟨s, p⟩ := a
      simp [cumPairs, hs]
  have hcf := cumPairs_chain_fst (sortedPairs rs) (sortedPairs_snd_nonneg rs hnn) 0
  have hcs := cumPairs_chain_snd (sortedPairs rs) (sortedPairs_chain rs) 0
  refine ⟨_, compute_d_values_of_ne_nil rs hcne, ?_, ?_⟩
  · exact interpPts_mono _ hcf hcs (by norm_num)
  · exact interpPts_mono _ hcf hcs (by norm_num)

theorem c6_percentiles_ordered_witness :
    (∀ r ∈ sampleS1, 0 ≤ r.Percent_Volume.getD 0)
    ∧ 0 < ((validPairs sampleS1).map Prod.snd).sum
    ∧ ∃ v, compute_d_values sampleS1 = some v ∧ v.D10 ≤ v.D50 ∧ v.D50 ≤ v.D90 := by
  have h1 : ∀ r ∈ sampleS1, 0 ≤ r.Percent_Volume.getD 0 := by
    intro r hr
    fin_cases hr <;> norm_num [mkRow]
  have h2 : 0 < ((validPairs sampleS1).map Prod.snd).sum := by
    norm_num [validPairs, sampleS1, mkRow, List.filterMap]
  exact ⟨h1, h2, c6_percentiles_ordered sampleS1 h1 h2⟩

/-- One reading contributes to at most one texture band, and (for
    non-negative values) no more than its own Percent_Volume. -/
theorem band_ites_le (r : Reading) (h : 0 ≤ r.Percent_Volume.getD 0) :
    (if clayMask r then r.Percent_Volume.getD 0 else 0)
      + (if siltMask r then r.Percent_Volume.getD 0 else 0)
      + (if sandMask r then r.Percent_Volume.getD 0 else 0)
      ≤ r.Percent_Volume.getD 0 := by
  cases hs : r.Size with
  | none => simp [clayMask, siltMask, sandMask, hs, h]
  | some s =>
    simp only [clayMask, siltMask, sandMask, hs, Bool.and_eq_true, decide_eq_true_eq]
    split_ifs <;> linarith

/-- A reading whose Size lies in [0, 2000] contributes to exactly one
    texture band. -/
theorem band_ites_eq (r : Reading) (s : ℚ) (hs : r.Size = some s)
    (h0 : 0 ≤ s) (h2 : s ≤ 2000) :
    (if clayMask r then r.Percent_Volume.getD 0 else 0)
      + (if siltMask r then r.Percent_Volume.getD 0 else 0)
      + (if sandMask r then r.Percent_Volume.getD 0 else 0)
      = r.Percent_Volume.getD 0 := by
  simp only [clayMask, siltMask, sandMask, hs, Bool.and_eq_true, decide_eq_true_eq]
  rcases lt_or_le s 4 with h4 | h4
  · rw [if_pos h4, if_neg (by rintro ⟨h, _⟩; linarith), if_neg (by rintro ⟨h, _⟩; linarith)]
    ring
  · rcases lt_or_le s 63 with h63 | h63
    · rw [if_neg (not_lt.2 h4), if_pos ⟨h4, h63⟩, if_neg (by rintro ⟨h, _⟩; linarith)]
      ring
    · rw [if_neg (not_lt.2 h4), if_neg (by rintro ⟨_, h⟩; linarith), if_pos ⟨h63, h2⟩]
      ring

theorem sum_three_le (rs : List Reading) (f g h k : Reading → ℚ)
    (hp : ∀ r ∈ rs, f r + g r + h r ≤ k r) :
    (rs.map f).sum + (rs.map g).sum + (rs.map h).sum ≤ (rs.map k).sum := by
  induction rs with
  | nil => simp
  | cons r t ih =>
    simp only [List.map_cons, List.sum_cons]
    have h1 := hp r (List.mem_cons_self r t)
    have h2 := ih fun x hx => hp x (List.mem_cons_of_mem _ hx)
    linarith

theorem sum_three_eq (rs : List Reading) (f g h k : Reading → ℚ)
    (hp : ∀ r ∈ rs, f r + g r + h r = k r) :
    (rs.map f).sum + (rs.map g).sum + (rs.map h).sum = (rs.map k).sum := by
  induction rs with
  | nil => simp
  | cons r t ih =>
    simp only [List.map_cons, List.sum_cons]
    have h1 := hp r (List.mem_cons_self r t)
    have h2 := ih fun x hx => hp x (List.mem_cons_of_mem _ hx)
    linarith

theorem seriesSum_map_getD (rs : List Reading) :
    seriesSum (rs.map (·.Percent_Volume))
      = (rs.map fun r => r.Percent_Volume.getD 0).sum := by
  simp only [seriesSum, List.map_map]
  rfl

/-- C8: when all PercentVolume values are non-negative and the sample's
    total is at most 100, Clay + Silt + Sand ≤ 100; when moreover every
    reading's Size lies inside [0, 2000], the three disjoint bands jointly
    cover the readings and Clay + Silt + Sand equals the sample's total
    PercentVolume. -/
theorem c8_texture_sum_bound (rs : List Reading) :
    ((∀ r ∈ rs, 0 ≤ r.Percent_Volume.getD 0) →
      seriesSum (rs.map (·.Percent_Volume)) ≤ 100 →
      (texture_fractions rs).Clay + (texture_fractions rs).Silt
        + (texture_fractions rs).Sand ≤ 100)
    ∧ ((∀ r ∈ rs, ∃ s, r.Size = some s ∧ 0 ≤ s ∧ s ≤ 2000) →
      (texture_fractions rs).Clay + (texture_fractions rs).Silt
        + (texture_fractions rs).Sand
        = seriesSum (rs.map (·.Percent_Volume))) := by
  have hc : (texture_fractions rs).Clay
      = (rs.map fun r => if clayMask r then r.Percent_Volume.getD 0 else 0).sum := by
    simp only [texture_fractions]
    rw [seriesSum_filter]
  have hsi : (texture_fractions rs).Silt
      = (rs.map fun r => if siltMask r then r.Percent_Volume.getD 0 else 0).sum := by
    simp only [texture_fractions]
    rw [seriesSum_filter]
  have hsa : (texture_fractions rs).Sand
      = (rs.map fun r => if sandMask r then r.Percent_Volume.getD 0 else 0).sum := by
    simp only [texture_fractions]
    rw [seriesSum_filter]
  constructor
  · intro h1 h2
    rw [hc, hsi, hsa]
    refine le_trans (sum_three_le rs _ _ _ _ fun r hr => band_ites_le r (h1 r hr)) ?_
    rw [← seriesSum_map_getD]
    exact h2
  · intro hin
    rw [hc, hsi, hsa, seriesSum_map_getD]
    exact sum_three_eq rs _ _ _ _ fun r hr => by
      obtain ⟨s, hs, h0, h2⟩ := hin r hr
      exact band_ites_eq r s hs h0 h2

theorem c8_texture_sum_bound_witness :
    (∀ r ∈ sampleTex, 0 ≤ r.Percent_Volume.getD 0)
    ∧ seriesSum (sampleTex.map (·.Percent_Volume)) ≤ 100
    ∧ (∀ r ∈ sampleTex, ∃ s, r.Size = some s ∧ 0 ≤ s ∧ s ≤ 2000)
    ∧ (texture_fractions sampleTex).Clay + (texture_fractions sampleTex).Silt
        + (texture_fractions sampleTex).Sand ≤ 100
    ∧ (texture_fractions sampleTex).Clay + (texture_fractions sampleTex).Silt
        + (texture_fractions sampleTex).Sand
        = seriesSum (sampleTex.map (·.Percent_Volume)) := by
  have h1 : ∀ r ∈ sampleTex, 0 ≤ r.Percent_Volume.getD 0 := by
    intro r hr
    fin_cases hr <;> norm_num [mkRow]
  have h2 : seriesSum (sampleTex.map (·.Percent_Volume)) ≤ 100 := by
    norm_num [seriesSum, sampleTex, mkRow]
  have h3 : ∀ r ∈ sampleTex, ∃ s, r.Size = some s ∧ 0 ≤ s ∧ s ≤ 2000 := by
    intro r hr
    fin_cases hr
    · exact ⟨2, rfl, by norm_num, by norm_num⟩
    · exact ⟨50, rfl, by norm_num, by norm_num⟩
    · exact ⟨500, rfl, by norm_num, by norm_num⟩
  exact ⟨h1, h2, h3, (c8_texture_sum_bound sampleTex).1 h1 h2,
    (c8_texture_sum_bound sampleTex).2 h3⟩

end Dashv1
